import Mathlib

/-!
# AuroraEditorSupportedLanguages.h

A shallow embedding of the header `AuroraEditorSupportedLanguages.h`.

The header holds no executable code.  It declares two version-metadata
variables, the incomplete type `TSLanguage`, the function-like preprocessor
definition `DECLARE_LANGUAGE_FUNC`, and eleven uses of it, arranged under three
comment headings.  The embedding keeps that structure: the header is a list of
items in source order, the preprocessor definition is a function from the
argument to the tokens of its replacement list, and everything else (the
declared identifiers, the groups, the link symbols) is computed from them.
-/

namespace AuroraEditorSupportedLanguages

/-! ## The header, item by item -/

/-- One item of the header.  The include guard, the `#import` line and the
`__cplusplus` linkage block declare nothing and are not items; the `#define`
line is the function `DECLARE_LANGUAGE_FUNC` below. -/
inductive HeaderItem where
  /-- A `//` comment line (text after the slashes, trimmed). -/
  | comment (text : String)
  /-- A `FOUNDATION_EXPORT <type> <name>;` variable declaration. -/
  | foundationExport (type : String) (name : String)
  /-- The line `typedef struct <tag> <name>;`. -/
  | typedefStruct (tag : String) (name : String)
  /-- A use `DECLARE_LANGUAGE_FUNC(lang)`. -/
  | declareLanguageFunc (lang : String)
  deriving DecidableEq, Repr

/-- The items of the header from line 12 to line 45, in source order. -/
def header : List HeaderItem :=
  [ .comment "! Project version number for AuroraEditorSupportedLanguages.",
    .foundationExport "double" "AuroraEditorSupportedLanguagesVersionNumber",
    .comment "! Project version string for AuroraEditorSupportedLanguages.",
    .foundationExport "const unsigned char[]" "AuroraEditorSupportedLanguagesVersionString",
    .typedefStruct "TSLanguage" "TSLanguage",
    .comment "Macro for declaring tree-sitter language functions",
    .comment "A collection of pointers to supported tree-sitter languages",
    .comment "Languages are grouped and sorted for better readability and maintainability",
    .comment "C-based languages",
    .declareLanguageFunc "c",
    .declareLanguageFunc "cpp",
    .declareLanguageFunc "c_sharp",
    .comment "Web technologies",
    .declareLanguageFunc "css",
    .declareLanguageFunc "javascript",
    .comment "Other languages (please keep in alphabetical order)",
    .declareLanguageFunc "bash",
    .declareLanguageFunc "go",
    .declareLanguageFunc "java",
    .declareLanguageFunc "ocaml",
    .declareLanguageFunc "php",
    .declareLanguageFunc "ruby" ]

/-- The preprocessor operator `##`: the two operands are pasted into a single
identifier token. -/
def pasteTokens (left right : String) : String :=
  left ++ right

/-- The replacement list of
`#define DECLARE_LANGUAGE_FUNC(lang) extern TSLanguage *tree_sitter_##lang();`
as a list of preprocessing tokens, with `tree_sitter_##lang` pasted. -/
def DECLARE_LANGUAGE_FUNC (lang : String) : List String :=
  ["extern", "TSLanguage", "*", pasteTokens "tree_sitter_" lang, "(", ")", ";"]

/-- The argument of each `DECLARE_LANGUAGE_FUNC` use, in source order. -/
def declaredLanguages : List HeaderItem → List String
  | [] => []
  | .declareLanguageFunc lang :: rest => lang :: declaredLanguages rest
  | _ :: rest => declaredLanguages rest

/-- The names of the `FOUNDATION_EXPORT` variables, in source order. -/
def exportedVariables : List HeaderItem → List String
  | [] => []
  | .foundationExport _ name :: rest => name :: exportedVariables rest
  | _ :: rest => exportedVariables rest

/-- True on a `DECLARE_LANGUAGE_FUNC` use, false on every other item. -/
def HeaderItem.isDeclaration : HeaderItem → Bool
  | .declareLanguageFunc _ => true
  | _ => false

/-- The declared languages split at the comment lines: every comment that is
directly followed by at least one `DECLARE_LANGUAGE_FUNC` use heads a group
holding the uses up to the next other item. -/
def languageGroups : List HeaderItem → List (String × List String)
  | [] => []
  | .comment text :: rest =>
    match declaredLanguages (rest.takeWhile HeaderItem.isDeclaration) with
    | [] => languageGroups rest
    | langs => (text, langs) :: languageGroups rest
  | _ :: rest => languageGroups rest

/-- The languages declared under the comment heading `heading`
(empty when no group has that heading). -/
def groupUnder (heading : String) : List String :=
  ((languageGroups header).lookup heading).getD []

/-! ## Reading the declarations the preprocessor definition produces -/

/-- The language the header is compiled as.  The header serves both sides of
`#ifdef __cplusplus`: C and Objective-C, where `__cplusplus` is undefined, and
C++ and Objective-C++, where it is defined. -/
inductive LanguageStandard where
  /-- C or Objective-C, language standard up to C17. -/
  | c17
  /-- C or Objective-C, language standard C23. -/
  | c23
  /-- C++ or Objective-C++ (`__cplusplus` defined). -/
  | cPlusPlus
  deriving DecidableEq, Repr

/-- Whether a function declarator with nothing between its parentheses is a
prototype with no parameters.  It is in C++ and in C23; up to C17 such a
declarator, outside a function definition, supplies no information about the
number or types of the parameters. -/
def LanguageStandard.emptyListIsPrototype : LanguageStandard → Bool
  | .c17 => false
  | .c23 => true
  | .cPlusPlus => true

/-- The C types that occur in the header's function declarations. -/
inductive CType where
  /-- A type named by a typedef name or a keyword. -/
  | named (name : String)
  /-- A pointer to `target`. -/
  | pointer (target : CType)
  deriving DecidableEq, Repr

/-- What a function declarator says about the parameters. -/
inductive ParameterList where
  /-- No prototype: number and types of the parameters are left open. -/
  | unspecified
  /-- A prototype with the given parameter types; `prototype []` is a function
  of no parameters, what `(void)` declares. -/
  | prototype (types : List CType)
  deriving DecidableEq, Repr

/-- A function declaration: storage class specifier, return type, declared
name and what the declarator says about the parameters. -/
structure FunctionDeclaration where
  storageClass : String
  returnType : CType
  name : String
  parameters : ParameterList
  deriving DecidableEq, Repr

/-- Letters, digits and the underscore, the characters of a C identifier. -/
def isIdentifierChar (c : Char) : Bool :=
  c.isAlphanum || c == '_'

/-- A C identifier: non-empty, identifier characters only, no leading digit. -/
def isIdentifier (s : String) : Bool :=
  match s.data with
  | [] => false
  | c :: cs => !c.isDigit && isIdentifierChar c && cs.all isIdentifierChar

/-- Wraps `base` in one pointer level per leading `*` token and returns the
tokens that follow. -/
def parsePointers (base : CType) : List String → CType × List String
  | "*" :: rest => parsePointers (.pointer base) rest
  | rest => (base, rest)

/-- Reads the tokens of one parameter, a type name followed by `*` tokens. -/
def parseParameterType : List String → Option CType
  | [] => none
  | typeName :: rest =>
    if isIdentifier typeName then
      match parsePointers (.named typeName) rest with
      | (type, []) => some type
      | _ => none
    else none

/-- Splits a token list at the `,` tokens. -/
def splitAtCommas : List String → List (List String)
  | [] => [[]]
  | token :: rest =>
    if token = "," then [] :: splitAtCommas rest
    else
      match splitAtCommas rest with
      | chunk :: chunks => (token :: chunk) :: chunks
      | [] => [[token]]

/-- Reads every chunk as one parameter; fails when one of them fails. -/
def parseParameterTypes : List (List String) → Option (List CType)
  | [] => some []
  | chunk :: chunks =>
    match parseParameterType chunk, parseParameterTypes chunks with
    | some type, some types => some (type :: types)
    | _, _ => none

/-- Reads the tokens between the parentheses of a function declarator.
Nothing between them is a prototype of no parameters only where the language
standard says so; `void` alone always is; anything else is a comma-separated
list of parameter types. -/
def parseParameterList (standard : LanguageStandard) : List String → Option ParameterList
  | [] => some (if standard.emptyListIsPrototype then .prototype [] else .unspecified)
  | ["void"] => some (.prototype [])
  | tokens => (parseParameterTypes (splitAtCommas tokens)).map .prototype

/-- Reads a token list of the shape
`extern <type-name> *... <identifier> ( <parameters> ) ;` as a function
declaration.  Any other token list is rejected. -/
def parseFunctionDeclaration (standard : LanguageStandard) :
    List String → Option FunctionDeclaration
  | "extern" :: typeName :: rest =>
    match parsePointers (.named typeName) rest with
    | (returnType, name :: "(" :: more) =>
      match more.span (fun token => token != ")") with
      | (between, [")", ";"]) =>
        if isIdentifier typeName && isIdentifier name then
          match parseParameterList standard between with
          | some parameters =>
            some { storageClass := "extern", returnType := returnType,
                   name := name, parameters := parameters }
          | none => none
        else none
      | _ => none
    | _ => none
  | _ => none

/-- Whether a call with `arguments.length` arguments is accepted against the
declaration: without a prototype any number of arguments is, with a prototype
the number of arguments has to be the number of parameters.  (Conversions
between argument and parameter types are not modelled.) -/
def acceptsCall (d : FunctionDeclaration) (arguments : List CType) : Bool :=
  match d.parameters with
  | .unspecified => true
  | .prototype types => arguments.length == types.length

/-- The function declarations the header contains after preprocessing, one per
`DECLARE_LANGUAGE_FUNC` use, in source order. -/
def functionDeclarations (standard : LanguageStandard) (items : List HeaderItem) :
    List FunctionDeclaration :=
  (declaredLanguages items).filterMap fun lang =>
    parseFunctionDeclaration standard (DECLARE_LANGUAGE_FUNC lang)

/-- The function symbols the header declares, in source order. -/
def functionSymbols (standard : LanguageStandard) (items : List HeaderItem) : List String :=
  (functionDeclarations standard items).map (·.name)

/-- The function symbol the use `DECLARE_LANGUAGE_FUNC(lang)` declares, when
its replacement list is a function declaration. -/
def declaredSymbol (standard : LanguageStandard) (lang : String) : Option String :=
  (parseFunctionDeclaration standard (DECLARE_LANGUAGE_FUNC lang)).map (·.name)

/-- Removes every underscore from an identifier. -/
def dropUnderscores (s : String) : String :=
  String.mk (s.data.filter fun c => c != '_')

/-! ## The language registry

The header has no registry: it only declares the constructors.  The registry
operations below are the ones the specification describes on top of it. -/

/-- Modelled from the spec: the error taxonomy of section 7, which the header
does not contain. -/
inductive RegistryError where
  | DuplicateIdentifier
  | UnknownLanguage
  | GrammarConstructionFailed
  deriving DecidableEq, Repr

/-- Modelled from the spec: the grammar handle, the value of a `TSLanguage *`.
The pointer is kept as its address; address `0` is the null pointer. -/
structure GrammarHandle where
  address : Nat
  deriving DecidableEq, Repr

/-- Modelled from the spec: a handle is null (invalid) when its address is 0. -/
def GrammarHandle.isNull (h : GrammarHandle) : Bool :=
  h.address == 0

/-- Modelled from the spec: the external parsing library, which is linked in
and not part of the header: for each link symbol, the handle the function of
that name returns when it is called without arguments. -/
abbrev ExternalLibrary := String → GrammarHandle

/-- Modelled from the spec: the constructor capability of section 3, a direct
adapter over one function of the external library, identified by the link
symbol of that function. -/
structure Capability where
  symbol : String
  deriving DecidableEq, Repr

/-- Modelled from the spec: invoking a capability calls the external
function it adapts and yields the handle that function returns. -/
def Capability.invoke (lib : ExternalLibrary) (c : Capability) : GrammarHandle :=
  lib c.symbol

/-- Modelled from the spec: `LanguageEntry` of section 3. -/
structure LanguageEntry where
  identifier : String
  displayGroup : Option String
  constructor : Capability
  deriving DecidableEq, Repr

/-- Modelled from the spec: the registry, the entries in insertion order. -/
structure Registry where
  entries : List LanguageEntry
  deriving DecidableEq, Repr

/-- Modelled from the spec: `supportedLanguages()` of section 4.1, all
registered identifiers, in insertion order. -/
def supportedLanguages (r : Registry) : List String :=
  r.entries.map (·.identifier)

/-- Modelled from the spec: `register(identifier, constructor, displayGroup?)`
of section 4.1: fails with `DuplicateIdentifier` if the identifier is already
present, and otherwise adds the entry after the existing ones. -/
def register (r : Registry) (identifier : String) (constructor : Capability)
    (displayGroup : Option String) : Except RegistryError Registry :=
  if identifier ∈ supportedLanguages r then
    .error .DuplicateIdentifier
  else
    .ok ⟨r.entries ++ [⟨identifier, displayGroup, constructor⟩]⟩

/-- Modelled from the spec: `lookup(identifier)` of section 4.1: the
constructor capability registered under the identifier, `UnknownLanguage` if
the identifier is absent. -/
def lookup (r : Registry) (identifier : String) : Except RegistryError Capability :=
  match r.entries.find? (fun e => e.identifier == identifier) with
  | some e => .ok e.constructor
  | none => .error .UnknownLanguage

/-- Modelled from the spec: `constructGrammar(identifier)` of section 4.1: look
up, then invoke the capability and forward the handle; `UnknownLanguage` is
propagated from the lookup, and a null handle is `GrammarConstructionFailed`. -/
def constructGrammar (lib : ExternalLibrary) (r : Registry) (identifier : String) :
    Except RegistryError GrammarHandle :=
  match lookup r identifier with
  | .error e => .error e
  | .ok capability =>
    let handle := capability.invoke lib
    if handle.isNull then .error .GrammarConstructionFailed else .ok handle

/-- Modelled from the spec: the two states of the lifecycle of section 4.1. -/
inductive RegistryState where
  | Uninitialized
  | Ready (registry : Registry)
  deriving DecidableEq, Repr

/-- Modelled from the spec: registers the entries of a catalog one after the
other, stopping at the first failure. -/
def registerAll : List LanguageEntry → Registry → Except RegistryError Registry
  | [], r => .ok r
  | e :: rest, r =>
    match register r e.identifier e.constructor e.displayGroup with
    | .ok next => registerAll rest next
    | .error err => .error err

/-- Modelled from the spec: the single transition `Uninitialized → Ready` of
section 4.1, driven by a catalog of entries: when every registration succeeds
the registry is `Ready`; a failed registration leaves it `Uninitialized` and
reports the error. -/
def populate (catalog : List LanguageEntry) : RegistryState × Option RegistryError :=
  match registerAll catalog ⟨[]⟩ with
  | .ok r => (.Ready r, none)
  | .error err => (.Uninitialized, some err)

/-- Modelled from the spec: the catalog entries the header stands for, one per
`DECLARE_LANGUAGE_FUNC` use in source order: the identifier is the argument,
the constructor adapts the function the use declares, and the display group is
the comment heading the use stands under (`heading` is the one in force). -/
def catalogFrom (heading : Option String) : List HeaderItem → List LanguageEntry
  | [] => []
  | .comment text :: rest => catalogFrom (some text) rest
  | .declareLanguageFunc lang :: rest =>
    ⟨lang, heading, ⟨pasteTokens "tree_sitter_" lang⟩⟩ :: catalogFrom heading rest
  | _ :: rest => catalogFrom none rest

/-- Modelled from the spec: the static catalog of the header. -/
def staticCatalog : List LanguageEntry :=
  catalogFrom none header

/-- Modelled from the spec: the registry holding the static catalog of the
header, as `populate` leaves it. -/
def headerRegistry : Registry :=
  ⟨staticCatalog⟩

/-- Modelled from the spec: a call of one of the three operations the registry
exposes after initialization (section 6). -/
inductive Request where
  | lookup (identifier : String)
  | supportedLanguages
  | constructGrammar (identifier : String)
  deriving DecidableEq, Repr

/-- Modelled from the spec: what a call returns. -/
inductive Response where
  | capability (result : Except RegistryError Capability)
  | languages (sequence : List String)
  | grammar (result : Except RegistryError GrammarHandle)

/-- Modelled from the spec: serving one call on a `Ready` registry.  No
operation returns a changed registry: it is immutable after initialization. -/
def serve (lib : ExternalLibrary) (r : Registry) : Request → Response
  | .lookup identifier => .capability (lookup r identifier)
  | .supportedLanguages => .languages (supportedLanguages r)
  | .constructGrammar identifier => .grammar (constructGrammar lib r identifier)

/-- Modelled from the spec: serving a sequence of calls, in order. -/
def serveAll (lib : ExternalLibrary) (r : Registry) : List Request → List Response
  | [] => []
  | request :: rest => serve lib r request :: serveAll lib r rest

/-! ## Auxiliary facts -/

theorem mem_supportedLanguages (r : Registry) (identifier : String) :
    identifier ∈ supportedLanguages r ↔ ∃ e ∈ r.entries, e.identifier = identifier := by
  simp [supportedLanguages]

theorem lookup_eq_error_iff (r : Registry) (identifier : String) (err : RegistryError) :
    lookup r identifier = .error err ↔
      err = .UnknownLanguage ∧ identifier ∉ supportedLanguages r := by
  unfold lookup
  cases hfind : r.entries.find? (fun e => e.identifier == identifier) with
  | none =>
    have hnot : identifier ∉ supportedLanguages r := by
      rw [mem_supportedLanguages]
      rintro ⟨e, he, rfl⟩
      have := List.find?_eq_none.mp hfind e he
      simp at this
    constructor
    · intro h
      injection h with h
      exact ⟨h.symm, hnot⟩
    · rintro ⟨rfl, _⟩
      rfl
  | some e =>
    have hmem := List.mem_of_find?_eq_some hfind
    have hid : e.identifier = identifier := by
      have := List.find?_some hfind
      simpa using this
    constructor
    · intro h
      cases h
    · rintro ⟨_, hnot⟩
      exact absurd ((mem_supportedLanguages r identifier).mpr ⟨e, hmem, hid⟩) hnot

theorem lookup_ok_mem (r : Registry) (identifier : String) (c : Capability)
    (h : lookup r identifier = .ok c) :
    ∃ e ∈ r.entries, e.identifier = identifier ∧ e.constructor = c := by
  unfold lookup at h
  cases hfind : r.entries.find? (fun e => e.identifier == identifier) with
  | none => rw [hfind] at h; cases h
  | some e =>
    rw [hfind] at h
    injection h with h
    refine ⟨e, List.mem_of_find?_eq_some hfind, ?_, h⟩
    have := List.find?_some hfind
    simpa using this

theorem register_ok (r : Registry) (identifier : String) (c : Capability)
    (g : Option String) (h : identifier ∉ supportedLanguages r) :
    register r identifier c g = .ok ⟨r.entries ++ [⟨identifier, g, c⟩]⟩ := by
  simp [register, h]

theorem register_dup (r : Registry) (identifier : String) (c : Capability)
    (g : Option String) (h : identifier ∈ supportedLanguages r) :
    register r identifier c g = .error .DuplicateIdentifier := by
  simp [register, h]

theorem registerAll_ok (es : List LanguageEntry) (r : Registry)
    (h : (supportedLanguages r ++ es.map (·.identifier)).Nodup) :
    registerAll es r = .ok ⟨r.entries ++ es⟩ := by
  induction es generalizing r with
  | nil => simp [registerAll]
  | cons e rest ih =>
    have hnot : e.identifier ∉ supportedLanguages r := by
      intro hmem
      rw [List.nodup_append] at h
      exact h.2.2 hmem (by simp)
    rw [registerAll, register_ok r _ _ _ hnot]
    simp only
    rw [ih]
    · simp
    · simp only [supportedLanguages, List.map_append, List.map_cons, List.map_nil,
        List.append_assoc, List.singleton_append] at h ⊢
      exact h

theorem registerAll_dup (es : List LanguageEntry) (r : Registry)
    (hr : (supportedLanguages r).Nodup)
    (h : ¬ (supportedLanguages r ++ es.map (·.identifier)).Nodup) :
    registerAll es r = .error .DuplicateIdentifier := by
  induction es generalizing r with
  | nil => simp at h; exact absurd hr h
  | cons e rest ih =>
    by_cases hmem : e.identifier ∈ supportedLanguages r
    · rw [registerAll, register_dup r _ _ _ hmem]
    · rw [registerAll, register_ok r _ _ _ hmem]
      simp only
      apply ih
      · simp only [supportedLanguages, List.map_append, List.map_cons, List.map_nil]
        rw [List.nodup_append]
        refine ⟨hr, by simp, ?_⟩
        intro a ha hb
        simp at hb
        subst hb
        exact hmem ha
      · simp only [supportedLanguages, List.map_append, List.map_cons, List.map_nil,
          List.append_assoc, List.singleton_append] at h ⊢
        exact h

theorem populate_nodup (catalog : List LanguageEntry)
    (h : (catalog.map (·.identifier)).Nodup) :
    populate catalog = (.Ready ⟨catalog⟩, none) := by
  have := registerAll_ok catalog ⟨[]⟩ (by simpa [supportedLanguages] using h)
  simp [populate, this]

theorem populate_dup (catalog : List LanguageEntry)
    (h : ¬ (catalog.map (·.identifier)).Nodup) :
    populate catalog = (.Uninitialized, some .DuplicateIdentifier) := by
  have := registerAll_dup catalog ⟨[]⟩ (by simp [supportedLanguages])
    (by simpa [supportedLanguages] using h)
  simp [populate, this]

theorem supportedLanguages_headerRegistry :
    supportedLanguages headerRegistry = declaredLanguages header := by
  decide

theorem populate_staticCatalog :
    populate staticCatalog = (.Ready headerRegistry, none) :=
  populate_nodup staticCatalog (by decide)

theorem pasteTokens_injective (left : String) :
    Function.Injective (pasteTokens left) := by
  intro a b h
  have h2 : (left ++ a).data = (left ++ b).data := congrArg String.data h
  rw [String.data_append, String.data_append] at h2
  exact String.ext (List.append_cancel_left h2)

theorem declaredLanguages_header :
    declaredLanguages header =
      ["c", "cpp", "c_sharp", "css", "javascript", "bash", "go", "java", "ocaml", "php",
        "ruby"] := by
  decide

theorem staticCatalog_constructor (e : LanguageEntry) (h : e ∈ staticCatalog) :
    e.constructor = ⟨pasteTokens "tree_sitter_" e.identifier⟩ := by
  revert e
  decide

/-! ## The header's catalog -/

/-- C1: the header declares eleven identifiers, and at any two different
positions of the list of `DECLARE_LANGUAGE_FUNC` uses the identifiers differ. -/
theorem declared_identifiers_pairwise_distinct (i j : Nat)
    (hi : i < (declaredLanguages header).length) (hj : j < (declaredLanguages header).length)
    (hij : i ≠ j) :
    (declaredLanguages header).length = 11 ∧
      (declaredLanguages header).get ⟨i, hi⟩ ≠ (declaredLanguages header).get ⟨j, hj⟩ := by
  refine ⟨by decide, ?_⟩
  intro h
  have hnodup : (declaredLanguages header).Nodup := by decide
  have := (List.Nodup.get_inj_iff hnodup).mp h
  exact hij (Fin.mk.inj_iff.mp this)

/-- Witness of C1 at the positions of `cpp` and `c_sharp`. -/
theorem declared_identifiers_pairwise_distinct_witness :
    (declaredLanguages header).length = 11 ∧
      (declaredLanguages header).get ⟨1, by decide⟩ ≠
        (declaredLanguages header).get ⟨2, by decide⟩ :=
  declared_identifiers_pairwise_distinct 1 2 (by decide) (by decide) (by decide)

/-- C7: the group under the heading "Other languages (please keep in
alphabetical order)" is bash, go, java, ocaml, php, ruby, and each identifier
of it is strictly below the next one in lexicographic character order. -/
theorem other_languages_alphabetical :
    groupUnder "Other languages (please keep in alphabetical order)" =
        ["bash", "go", "java", "ocaml", "php", "ruby"] ∧
      List.Chain' (fun a b : String => a < b)
        (groupUnder "Other languages (please keep in alphabetical order)") := by
  have hg : groupUnder "Other languages (please keep in alphabetical order)" =
      ["bash", "go", "java", "ocaml", "php", "ruby"] := by decide
  refine ⟨hg, ?_⟩
  rw [hg]
  simp only [List.chain'_cons, List.chain'_singleton, String.lt_iff_toList_lt, and_true]
  decide

/-- C8 fails as stated: not every group of the header is ascending in
lexicographic character order, because in the C-based group `cpp` is followed
by `c_sharp`, which is smaller (the underscore precedes the letter p). -/
theorem groups_not_all_ascending :
    languageGroups header =
        [("C-based languages", ["c", "cpp", "c_sharp"]),
         ("Web technologies", ["css", "javascript"]),
         ("Other languages (please keep in alphabetical order)",
           ["bash", "go", "java", "ocaml", "php", "ruby"])] ∧
      "c_sharp" < "cpp" ∧
      ¬ (∀ g ∈ languageGroups header, List.Chain' (fun a b : String => a < b) g.2) := by
  refine ⟨by decide, by rw [String.lt_iff_toList_lt]; decide, ?_⟩
  intro h
  have hc := h ("C-based languages", ["c", "cpp", "c_sharp"]) (by decide)
  simp only [List.chain'_cons, List.chain'_singleton, String.lt_iff_toList_lt, and_true] at hc
  exact absurd hc.2 (by decide)

/-- C8, amended: the Web and the Other group are ascending in lexicographic
character order; in the C-based group `c` is below `cpp`, and every group,
the C-based one included, is ascending once underscores are disregarded. -/
theorem groups_ascending_modulo_underscore (g : String × List String)
    (hg : g ∈ languageGroups header) :
    List.Chain' (fun a b : String => a < b) (g.2.map dropUnderscores) ∧
      (g.1 ≠ "C-based languages" → List.Chain' (fun a b : String => a < b) g.2) ∧
      "c" < "cpp" := by
  have hgroups : languageGroups header =
      [("C-based languages", ["c", "cpp", "c_sharp"]),
       ("Web technologies", ["css", "javascript"]),
       ("Other languages (please keep in alphabetical order)",
         ["bash", "go", "java", "ocaml", "php", "ruby"])] := by decide
  rw [hgroups] at hg
  simp only [List.mem_cons, List.mem_singleton, List.not_mem_nil, or_false] at hg
  rcases hg with rfl | rfl | rfl
  · refine ⟨?_, fun h => absurd rfl h, by rw [String.lt_iff_toList_lt]; decide⟩
    simp only [List.map, List.chain'_cons, List.chain'_singleton, String.lt_iff_toList_lt,
      and_true]
    decide
  · refine ⟨?_, fun _ => ?_, by rw [String.lt_iff_toList_lt]; decide⟩
    · simp only [List.map, List.chain'_cons, List.chain'_singleton, String.lt_iff_toList_lt,
        and_true]
      decide
    · simp only [List.chain'_cons, List.chain'_singleton, String.lt_iff_toList_lt, and_true]
      decide
  · refine ⟨?_, fun _ => ?_, by rw [String.lt_iff_toList_lt]; decide⟩
    · simp only [List.map, List.chain'_cons, List.chain'_singleton, String.lt_iff_toList_lt,
        and_true]
      decide
    · simp only [List.chain'_cons, List.chain'_singleton, String.lt_iff_toList_lt, and_true]
      decide

/-- Witness of the amended C8 at the C-based group. -/
theorem groups_ascending_modulo_underscore_witness :
    ("C-based languages", ["c", "cpp", "c_sharp"]) ∈ languageGroups header ∧
      List.Chain' (fun a b : String => a < b) (["c", "cpp", "c_sharp"].map dropUnderscores) :=
  ⟨by decide,
    (groups_ascending_modulo_underscore ("C-based languages", ["c", "cpp", "c_sharp"])
      (by decide)).1⟩

theorem pasteTokens_ne_star (lang : String) : pasteTokens "tree_sitter_" lang ≠ "*" := by
  intro h
  have := congrArg (fun s => s.data.head?) h
  simp [pasteTokens, String.data_append] at this

theorem parse_DECLARE_LANGUAGE_FUNC (standard : LanguageStandard) (lang : String) :
    parseFunctionDeclaration standard (DECLARE_LANGUAGE_FUNC lang) =
      if isIdentifier (pasteTokens "tree_sitter_" lang) then
        some { storageClass := "extern", returnType := .pointer (.named "TSLanguage"),
               name := pasteTokens "tree_sitter_" lang,
               parameters := if standard.emptyListIsPrototype then .prototype []
                 else .unspecified }
      else none := by
  have hT : isIdentifier "TSLanguage" = true := by decide
  simp [DECLARE_LANGUAGE_FUNC, parseFunctionDeclaration, parsePointers,
    pasteTokens_ne_star lang, hT, parseParameterList]

theorem declaredSymbol_eq_some (standard : LanguageStandard) (lang symbol : String)
    (h : declaredSymbol standard lang = some symbol) :
    symbol = pasteTokens "tree_sitter_" lang := by
  rw [declaredSymbol, parse_DECLARE_LANGUAGE_FUNC] at h
  split at h
  · simpa using h.symm
  · simp at h

theorem isIdentifier_pasteTokens (lang : String)
    (h : lang.data.all isIdentifierChar = true) :
    isIdentifier (pasteTokens "tree_sitter_" lang) = true := by
  have hd : (pasteTokens "tree_sitter_" lang).data =
      't' :: ("ree_sitter_".data ++ lang.data) := by
    rw [pasteTokens, String.data_append]
    rfl
  rw [isIdentifier, hd]
  simp only [List.all_append, h, Bool.and_true]
  decide

/-- C9 fails as stated: compiled as C or Objective-C up to C17, the declaration
of `tree_sitter_c` has no prototype, so a call with one argument is accepted
against it; hence not every declared constructor, under every language the
header is compiled as, accepts calls without arguments only. -/
theorem c17_constructor_without_prototype :
    "c" ∈ declaredLanguages header ∧
      parseFunctionDeclaration .c17 (DECLARE_LANGUAGE_FUNC "c") =
        some { storageClass := "extern", returnType := .pointer (.named "TSLanguage"),
               name := "tree_sitter_c", parameters := .unspecified } ∧
      acceptsCall { storageClass := "extern", returnType := .pointer (.named "TSLanguage"),
                    name := "tree_sitter_c", parameters := .unspecified }
        [.named "int"] = true ∧
      ¬ (∀ standard, ∀ lang ∈ declaredLanguages header,
          ∃ d, parseFunctionDeclaration standard (DECLARE_LANGUAGE_FUNC lang) = some d ∧
            d.returnType = .pointer (.named "TSLanguage") ∧
            ∀ arguments, acceptsCall d arguments = true → arguments = []) := by
  refine ⟨by decide, by decide, by decide, ?_⟩
  intro h
  obtain ⟨d, hd, _, hcall⟩ := h .c17 "c" (by decide)
  have hparse : parseFunctionDeclaration .c17 (DECLARE_LANGUAGE_FUNC "c") =
      some { storageClass := "extern", returnType := .pointer (.named "TSLanguage"),
             name := "tree_sitter_c", parameters := .unspecified } := by decide
  rw [hparse] at hd
  injection hd with hd
  subst hd
  exact absurd (hcall [.named "int"] (by decide)) (by decide)

/-- C9, amended: for each of the eleven declared languages the declaration
produced by `DECLARE_LANGUAGE_FUNC` is a function `tree_sitter_<lang>` that
returns a pointer to `TSLanguage`, is written with nothing between its
parentheses and accepts a call without arguments.  Compiled as C++ or C23 that
is a prototype of no parameters, and only calls without arguments are accepted;
compiled as C or Objective-C up to C17 it is no prototype, and the arguments of
a call are not restricted. -/
theorem declared_constructor_signature (standard : LanguageStandard) (lang : String)
    (h : lang ∈ declaredLanguages header) :
    ∃ d, parseFunctionDeclaration standard (DECLARE_LANGUAGE_FUNC lang) = some d ∧
      d.storageClass = "extern" ∧
      d.returnType = .pointer (.named "TSLanguage") ∧
      d.name = "tree_sitter_" ++ lang ∧
      d.parameters =
        (if standard.emptyListIsPrototype then .prototype [] else .unspecified) ∧
      acceptsCall d [] = true ∧
      (standard.emptyListIsPrototype = true →
        ∀ arguments, acceptsCall d arguments = true ↔ arguments = []) ∧
      (standard.emptyListIsPrototype = false →
        ∀ arguments, acceptsCall d arguments = true) ∧
      (functionDeclarations standard header).length = 11 := by
  have hid : isIdentifier (pasteTokens "tree_sitter_" lang) = true := by
    revert lang
    decide
  have hlen : (functionDeclarations standard header).length = 11 := by
    cases standard <;> decide
  refine ⟨_, by rw [parse_DECLARE_LANGUAGE_FUNC, if_pos hid], rfl, rfl, rfl, rfl, ?_, ?_, ?_,
    hlen⟩
  · cases standard <;> rfl
  · intro hp arguments
    simp [acceptsCall, hp]
  · intro hp arguments
    simp [acceptsCall, hp]

/-- Witness of the amended C9 at the language `go`, compiled as C++. -/
theorem declared_constructor_signature_witness :
    "go" ∈ declaredLanguages header ∧
      ∃ d, parseFunctionDeclaration .cPlusPlus (DECLARE_LANGUAGE_FUNC "go") = some d ∧
        d.name = "tree_sitter_go" ∧ d.parameters = .prototype [] ∧
        ∀ arguments, acceptsCall d arguments = true ↔ arguments = [] :=
  ⟨by decide,
    (declared_constructor_signature .cPlusPlus "go" (by decide)).imp fun _ hd =>
      ⟨hd.1, hd.2.2.2.1, hd.2.2.2.2.1, hd.2.2.2.2.2.2.1 rfl⟩⟩

/-- C10: the function symbol a use `DECLARE_LANGUAGE_FUNC(lang)` declares
determines `lang`: two uses that declare the same symbol have the same
argument.  Every argument made of identifier characters declares the symbol
`tree_sitter_` followed by the argument.  The header declares eleven symbols,
pairwise distinct, and no use of the definition declares one of the two
version-metadata symbols. -/
theorem symbol_naming_injective (standard : LanguageStandard) :
    (∀ a b symbol, declaredSymbol standard a = some symbol →
        declaredSymbol standard b = some symbol → a = b) ∧
      (∀ lang : String, lang.data.all isIdentifierChar = true →
        declaredSymbol standard lang = some ("tree_sitter_" ++ lang)) ∧
      functionSymbols standard header =
        (declaredLanguages header).map (fun lang => "tree_sitter_" ++ lang) ∧
      (functionSymbols standard header).length = 11 ∧
      (functionSymbols standard header).Nodup ∧
      exportedVariables header =
        ["AuroraEditorSupportedLanguagesVersionNumber",
         "AuroraEditorSupportedLanguagesVersionString"] ∧
      ∀ lang symbol, declaredSymbol standard lang = some symbol →
        symbol ∉ exportedVariables header := by
  refine ⟨?_, ?_, by cases standard <;> decide, by cases standard <;> decide,
    by cases standard <;> decide, by decide, ?_⟩
  · intro a b symbol ha hb
    have h1 := declaredSymbol_eq_some standard a symbol ha
    have h2 := declaredSymbol_eq_some standard b symbol hb
    exact pasteTokens_injective _ (h1.symm.trans h2)
  · intro lang hlang
    rw [declaredSymbol, parse_DECLARE_LANGUAGE_FUNC, if_pos (isIdentifier_pasteTokens lang hlang)]
    rfl
  · intro lang symbol hsym hmem
    have hvars : exportedVariables header =
        ["AuroraEditorSupportedLanguagesVersionNumber",
         "AuroraEditorSupportedLanguagesVersionString"] := by decide
    rw [hvars, declaredSymbol_eq_some standard lang symbol hsym] at hmem
    simp only [List.mem_cons, List.mem_singleton, List.not_mem_nil, or_false] at hmem
    have hdata : ∀ s : String, pasteTokens "tree_sitter_" lang = s →
        s.data.head? = some 't' := by
      intro s hs
      rw [← hs, pasteTokens, String.data_append]
      rfl
    rcases hmem with h | h
    · have := hdata _ h
      revert this
      decide
    · have := hdata _ h
      revert this
      decide

/-- Witness of C10: `go` declares `tree_sitter_go`, and `java`, a different
argument, does not declare that symbol. -/
theorem symbol_naming_injective_witness :
    declaredSymbol .c17 "go" = some "tree_sitter_go" ∧
      declaredSymbol .c17 "java" ≠ some "tree_sitter_go" :=
  ⟨(symbol_naming_injective .c17).2.1 "go" (by decide),
    fun h => absurd ((symbol_naming_injective .c17).1 "go" "java" "tree_sitter_go"
      (by decide) h) (by decide)⟩

/-! ## The registry over the header's catalog -/

theorem lookup_headerRegistry (identifier : String)
    (h : identifier ∈ declaredLanguages header) :
    lookup headerRegistry identifier = .ok ⟨pasteTokens "tree_sitter_" identifier⟩ := by
  cases hl : lookup headerRegistry identifier with
  | error err =>
    have := ((lookup_eq_error_iff _ _ _).mp hl).2
    rw [supportedLanguages_headerRegistry] at this
    exact absurd h this
  | ok c =>
    obtain ⟨e, he, hid, hc⟩ := lookup_ok_mem _ _ _ hl
    rw [← hc, ← hid]
    exact congrArg _ (staticCatalog_constructor e he)

theorem constructGrammar_of_lookup (lib : ExternalLibrary) (r : Registry)
    (identifier : String) (c : Capability) (h : lookup r identifier = .ok c) :
    constructGrammar lib r identifier =
      if (lib c.symbol).isNull then .error .GrammarConstructionFailed else .ok (lib c.symbol) := by
  simp [constructGrammar, h, Capability.invoke]

/-- C2: initialization over the header's catalog reaches `Ready`, and in that
registry the lookup of each declared identifier succeeds with the capability
for `tree_sitter_<identifier>`, which is the constructor of no entry registered
under another identifier. -/
theorem lookup_registered (identifier : String)
    (h : identifier ∈ declaredLanguages header) :
    populate staticCatalog = (.Ready headerRegistry, none) ∧
      lookup headerRegistry identifier = .ok ⟨"tree_sitter_" ++ identifier⟩ ∧
      ∀ e ∈ headerRegistry.entries, e.identifier ≠ identifier →
        lookup headerRegistry identifier ≠ .ok e.constructor := by
  refine ⟨populate_staticCatalog, lookup_headerRegistry identifier h, ?_⟩
  intro e he hne heq
  rw [lookup_headerRegistry identifier h, staticCatalog_constructor e he] at heq
  injection heq with heq
  injection heq with heq
  exact hne (pasteTokens_injective _ heq).symm

/-- Witness of C2 at the identifier `c_sharp`. -/
theorem lookup_registered_witness :
    "c_sharp" ∈ declaredLanguages header ∧
      lookup headerRegistry "c_sharp" = .ok ⟨"tree_sitter_c_sharp"⟩ :=
  ⟨by decide, (lookup_registered "c_sharp" (by decide)).2.1⟩

/-- C3: in the registry over the header's catalog, `lookup` fails with
`UnknownLanguage` exactly for the identifiers the header does not declare, and
so does `constructGrammar`, whatever the external library returns; `python`
and `not-a-real-language` are two such identifiers. -/
theorem unknown_language_iff (lib : ExternalLibrary) (identifier : String) :
    (lookup headerRegistry identifier = .error .UnknownLanguage ↔
        identifier ∉ declaredLanguages header) ∧
      (constructGrammar lib headerRegistry identifier = .error .UnknownLanguage ↔
        identifier ∉ declaredLanguages header) ∧
      "python" ∉ declaredLanguages header ∧
      "not-a-real-language" ∉ declaredLanguages header := by
  have hlookup : lookup headerRegistry identifier = .error .UnknownLanguage ↔
      identifier ∉ declaredLanguages header := by
    rw [lookup_eq_error_iff, supportedLanguages_headerRegistry]
    simp
  refine ⟨hlookup, ?_, by decide, by decide⟩
  rw [← hlookup]
  cases hl : lookup headerRegistry identifier with
  | error err =>
    simp [constructGrammar, hl]
  | ok c =>
    rw [constructGrammar_of_lookup lib _ _ c hl]
    split <;> simp

/-- C4: in the registry over the header's catalog, `supportedLanguages` has
no duplicates, has exactly the declared identifiers as elements, and every
call of it, at any place in any sequence of calls, returns the same sequence:
the eleven identifiers in the order of the header. -/
theorem supportedLanguages_stable (lib : ExternalLibrary) (requests : List Request) :
    (supportedLanguages headerRegistry).Nodup ∧
      (∀ identifier, identifier ∈ supportedLanguages headerRegistry ↔
        identifier ∈ declaredLanguages header) ∧
      ∀ response ∈ serveAll lib headerRegistry requests, ∀ sequence,
        response = .languages sequence →
          sequence = ["c", "cpp", "c_sharp", "css", "javascript", "bash", "go", "java",
            "ocaml", "php", "ruby"] := by
  refine ⟨by decide, fun identifier => by rw [supportedLanguages_headerRegistry], ?_⟩
  induction requests with
  | nil => intro response hmem; simp [serveAll] at hmem
  | cons request rest ih =>
    intro response hmem sequence hseq
    simp only [serveAll, List.mem_cons] at hmem
    rcases hmem with hhead | htail
    · subst hhead
      cases request with
      | lookup identifier => simp [serve] at hseq
      | constructGrammar identifier => simp [serve] at hseq
      | supportedLanguages =>
        simp only [serve, Response.languages.injEq] at hseq
        rw [← hseq]
        decide
    · exact ih response htail sequence hseq

/-- Witness of C4: two calls of `supportedLanguages` with a lookup between
them, against a library whose constructors all return the handle at address 1. -/
theorem supportedLanguages_stable_witness :
    ∀ response ∈ serveAll (fun _ => ⟨1⟩) headerRegistry
        [.supportedLanguages, .lookup "go", .supportedLanguages],
      ∀ sequence, response = .languages sequence →
        sequence = ["c", "cpp", "c_sharp", "css", "javascript", "bash", "go", "java",
          "ocaml", "php", "ruby"] :=
  (supportedLanguages_stable (fun _ => ⟨1⟩)
    [.supportedLanguages, .lookup "go", .supportedLanguages]).2.2

/-- C5: `register` fails with `DuplicateIdentifier` exactly when the identifier
is already present, and otherwise adds the entry; initialization over a catalog
fails with `DuplicateIdentifier` and stays `Uninitialized` exactly when two
entries of the catalog share an identifier, and then no registry is `Ready`. -/
theorem register_duplicate_identifier (r : Registry) (identifier : String)
    (constructor : Capability) (displayGroup : Option String)
    (catalog : List LanguageEntry) :
    (register r identifier constructor displayGroup = .error .DuplicateIdentifier ↔
        identifier ∈ supportedLanguages r) ∧
      (identifier ∉ supportedLanguages r →
        register r identifier constructor displayGroup =
          .ok ⟨r.entries ++ [⟨identifier, displayGroup, constructor⟩]⟩) ∧
      (populate catalog = (.Uninitialized, some .DuplicateIdentifier) ↔
        ¬ (catalog.map (·.identifier)).Nodup) ∧
      (¬ (catalog.map (·.identifier)).Nodup →
        ∀ ready, (populate catalog).1 ≠ .Ready ready) := by
  refine ⟨?_, register_ok r identifier constructor displayGroup, ?_, ?_⟩
  · by_cases hmem : identifier ∈ supportedLanguages r
    · simp [register_dup r identifier constructor displayGroup hmem, hmem]
    · simp [register_ok r identifier constructor displayGroup hmem, hmem]
  · by_cases hnodup : (catalog.map (·.identifier)).Nodup
    · simp [populate_nodup catalog hnodup, hnodup]
    · simp [populate_dup catalog hnodup, hnodup]
  · intro hnodup ready
    simp [populate_dup catalog hnodup]

/-- Witness of C5: a second `go` entry on top of the header's catalog. -/
theorem register_duplicate_identifier_witness :
    register headerRegistry "go" ⟨"tree_sitter_go"⟩ none = .error .DuplicateIdentifier ∧
      populate (staticCatalog ++ [⟨"go", none, ⟨"tree_sitter_go"⟩⟩]) =
        (.Uninitialized, some .DuplicateIdentifier) ∧
      register headerRegistry "python" ⟨"tree_sitter_python"⟩ none =
        .ok ⟨headerRegistry.entries ++ [⟨"python", none, ⟨"tree_sitter_python"⟩⟩]⟩ :=
  have h := register_duplicate_identifier headerRegistry "go" ⟨"tree_sitter_go"⟩ none
    (staticCatalog ++ [⟨"go", none, ⟨"tree_sitter_go"⟩⟩])
  have h2 := register_duplicate_identifier headerRegistry "python" ⟨"tree_sitter_python"⟩ none []
  ⟨h.1.mpr (by decide), h.2.2.1.mpr (by decide), h2.2.1 (by decide)⟩

/-- C6: for each declared identifier, `constructGrammar` on the registry over
the header's catalog calls `tree_sitter_<identifier>` of the external library:
it fails with `GrammarConstructionFailed` exactly when that call returns a null
handle, and otherwise returns that very handle, which is not null. -/
theorem constructGrammar_forwards (lib : ExternalLibrary) (identifier : String)
    (h : identifier ∈ declaredLanguages header) :
    (constructGrammar lib headerRegistry identifier = .error .GrammarConstructionFailed ↔
        (lib ("tree_sitter_" ++ identifier)).isNull = true) ∧
      ((lib ("tree_sitter_" ++ identifier)).isNull = false →
        constructGrammar lib headerRegistry identifier =
          .ok (lib ("tree_sitter_" ++ identifier))) ∧
      ∀ handle, constructGrammar lib headerRegistry identifier = .ok handle →
        handle = lib ("tree_sitter_" ++ identifier) ∧ handle.isNull = false := by
  have hc := constructGrammar_of_lookup lib _ _ _ (lookup_headerRegistry identifier h)
  simp only [pasteTokens] at hc
  rw [hc]
  cases hnull : (lib ("tree_sitter_" ++ identifier)).isNull with
  | true => simp
  | false =>
    simp only [Bool.false_eq_true, if_false, iff_false, true_implies]
    refine ⟨by simp, trivial, ?_⟩
    intro handle hh
    injection hh with hh
    exact ⟨hh.symm, by rw [← hh]; exact hnull⟩

/-- Witness of C6 at `go`, against a library whose `tree_sitter_go` returns the
handle at address 4096 and whose other constructors return null. -/
theorem constructGrammar_forwards_witness :
    "go" ∈ declaredLanguages header ∧
      constructGrammar (fun s => if s = "tree_sitter_go" then ⟨4096⟩ else ⟨0⟩)
        headerRegistry "go" = .ok ⟨4096⟩ :=
  ⟨by decide,
    (constructGrammar_forwards (fun s => if s = "tree_sitter_go" then ⟨4096⟩ else ⟨0⟩) "go"
      (by decide)).2.1 (by decide)⟩

end AuroraEditorSupportedLanguages
